import Mathlib

/-!
Verification development for the CLI tool resolution and install flow of the
vscode-knative extension (class KnCliConfig: loadMetadata, detectOrDownload,
getVersion, selectTool).

The TypeScript source is shallowly embedded as executable Lean definitions.
External effects (filesystem existence checks, subprocess stdout, semver range
satisfaction, the which lookup, download digests and user prompt responses) are
supplied by a `World` record, and every external call the source performs is
recorded in a `List Event` trace so that claims about which operations are or
are not invoked can be stated.  The retry loop of detectOrDownload is given
explicit fuel; a result of `none` means no value was produced, either because
the fuel ran out while the user kept choosing to retry, or because the run was
aborted by the exception fs.chmodSync throws when its target does not exist,
which rejects the promise before the registry write of line 135 can run.
-/

/-! ## JS string helpers -/

/-- ASCII whitespace, modelling the JS regex class \s and String.prototype.trim
(the non-ASCII whitespace code points are irrelevant to CLI stdout). -/
def isWsChar (c : Char) : Bool :=
  c = ' ' || c = '\t' || c = '\n' || c = '\r' || c = '\x0b' || c = '\x0c'

/-- Character class [0-9a-zA-Z-] used by the semver prerelease and build parts. -/
def isIdChar (c : Char) : Bool :=
  c.isAlphanum || c = '-'

/-- Model of JS String.prototype.trim. -/
def jsTrim (s : String) : String :=
  String.mk (((s.toList.dropWhile isWsChar).reverse.dropWhile isWsChar).reverse)

/-- Model of JS String.prototype.split with separator a single newline:
"a\nb".split produces ["a","b"], "".split produces [""]. -/
def splitLinesCh : List Char → List (List Char)
  | [] => [[]]
  | '\n' :: rest => [] :: splitLinesCh rest
  | c :: rest =>
    match splitLinesCh rest with
    | [] => [[c]]
    | l :: ls => (c :: l) :: ls

/-- Model of JS String.prototype.endsWith. -/
def jsEndsWith (s suffixStr : String) : Bool :=
  List.isSuffixOf suffixStr.toList s.toList

/-- Truthiness of a JS string-or-null value: null and the empty string are falsy. -/
def truthyOpt : Option String → Bool
  | none => false
  | some s => if s = "" then false else true

/-! ## The version regex of getVersion

The source matches each stdout line against
Version:(\s+)v((([0-9]+)\.([0-9]+)\.([0-9]+)(?:-(id(\.id)*))?)(?:\+(id(\.id)*))?).*
(id abbreviates [0-9a-zA-Z-]+) and extracts capture group 2.  The defs below
hand-compile that regex: an anchored attempt at one position, then the usual
leftmost search over start positions. -/

/-- Consume the literal given as the first list from the front of the second,
returning the remainder, or none when it does not occur there. -/
def dropLit : List Char → List Char → Option (List Char)
  | [], cs => some cs
  | l :: ls, c :: cs => if c = l then dropLit ls cs else none
  | _ :: _, [] => none

/-- Greedy [0-9]+ : the maximal nonempty digit run and the rest. -/
def parseNum (cs : List Char) : Option (List Char × List Char) :=
  let p := cs.span Char.isDigit
  if p.1.isEmpty then none else some p

/-- Greedy [0-9a-zA-Z-]+ : the maximal nonempty identifier run and the rest. -/
def parseIdent (cs : List Char) : Option (List Char × List Char) :=
  let p := cs.span isIdChar
  if p.1.isEmpty then none else some p

/-- Greedy (\.[0-9a-zA-Z-]+)* : consumed characters and the rest.  The first
argument is fuel, instantiated with the length of the input. -/
def parseDotIdents : Nat → List Char → List Char × List Char
  | 0, cs => ([], cs)
  | Nat.succ n, cs =>
    match cs with
    | '.' :: cs2 =>
      match parseIdent cs2 with
      | some (ids, rest) =>
        let more := parseDotIdents n rest
        ('.' :: ids ++ more.1, more.2)
      | none => ([], cs)
    | _ => ([], cs)

/-- Capture group 2 of the version regex, parsed right after the mandatory v:
major.minor.patch, an optional -prerelease, an optional +build. -/
def parseSemverG2 (cs : List Char) : Option (List Char) :=
  match parseNum cs with
  | none => none
  | some (major, r1) =>
    match r1 with
    | '.' :: r2 =>
      match parseNum r2 with
      | none => none
      | some (minorV, r3) =>
        match r3 with
        | '.' :: r4 =>
          match parseNum r4 with
          | none => none
          | some (patch, r5) =>
            let pre :=
              match r5 with
              | '-' :: r5a =>
                match parseIdent r5a with
                | some (ids, ra) =>
                  let more := parseDotIdents ra.length ra
                  ('-' :: ids ++ more.1, more.2)
                | none => (([] : List Char), r5)
              | _ => (([] : List Char), r5)
            let bld :=
              match pre.2 with
              | '+' :: r6a =>
                match parseIdent r6a with
                | some (ids, ra) =>
                  let more := parseDotIdents ra.length ra
                  ('+' :: ids ++ more.1, more.2)
                | none => (([] : List Char), pre.2)
              | _ => (([] : List Char), pre.2)
            some (major ++ '.' :: minorV ++ '.' :: patch ++ pre.1 ++ bld.1)
        | _ => none
    | _ => none

/-- Anchored attempt of the version regex at the start of the character list,
returning capture group 2 on success. -/
def matchVersionAt (cs : List Char) : Option (List Char) :=
  match dropLit ("Version:".toList) cs with
  | none => none
  | some r1 =>
    let p := r1.span isWsChar
    if p.1.isEmpty then none
    else
      match p.2 with
      | 'v' :: r3 => parseSemverG2 r3
      | _ => none

/-- Leftmost search of the version regex over a line, as JS match and exec do. -/
def searchVersion : List Char → Option (List Char)
  | [] => none
  | c :: rest =>
    match matchVersionAt (c :: rest) with
    | some g => some g
    | none => searchVersion rest

/-- Lines 149-159 of the source: trim the stdout, split it on newlines, keep the
lines the regex matches, map them to capture group 2, and take the first. -/
def parseStdout (out : String) : Option String :=
  (((splitLinesCh (jsTrim out).toList).filterMap searchVersion).head?).map String.mk

/-! ## Data model of the tool registry and of the external world -/

/-- One entry of the in-memory tool registry (KnCliConfig.tools[cmd]) after
loadMetadata has flattened the per-OS overrides.  The field filePrefixName
renders the filePrefix property of the source. -/
structure ToolEntry where
  location : Option String
  cmdFileName : String
  dlFileName : String
  version : String
  description : String
  versionRangeLabel : String
  versionRange : String
  url : String
  sha256sum : String
  filePrefixName : String
  deriving DecidableEq

/-- External operations performed by the source, recorded in order: filesystem
existence checks, subprocess invocations, the shelljs which lookup, information
prompts shown to the user, directory creation, downloads, digest computations,
file removals, archive extractions, chmod calls, and opening the help page. -/
inductive Event where
  | fsExists (p : String)
  | execCmd (c : String)
  | whichLookup (c : String)
  | infoPrompt (msg : String)
  | ensureDir (p : String)
  | download (url dest : String)
  | hashFile (p : String)
  | removeFile (p : String)
  | unzip (src dest strip : String)
  | chmod (p : String)
  | openHelp
  deriving DecidableEq

/-- The environment a run of the flow observes: what the filesystem, the
subprocesses, the semver library, which, hasha and the user answer.  digests i
is the sha256 of the file downloaded in retry iteration i; retryResponses i is
the user's answer to the mismatch prompt of iteration i (none models dismissing
the prompt, which resolves the showInformationMessage promise with undefined).
extractedCmdFile says whether extracting a .zip or .tar.gz archive into the
.vs-kn directory produces a file named cmdFileName there: that depends on the
archive's contents, an external fact the source never inspects. -/
structure World where
  existsAt : String → Bool
  execStdout : String → String
  satisfiesV : String → String → Bool
  whichResult : Option String
  home : String
  os : String
  initialResponse : Option String
  digests : Nat → String
  retryResponses : Nat → Option String
  extractedCmdFile : Bool

/-- Model of semver.satisfies: a falsy (undefined) version satisfies no range. -/
def satisfiesOpt (w : World) : Option String → String → Bool
  | none, _ => false
  | some v, r => w.satisfiesV v r

/-- Model of path.resolve(home, a) for the relative segment a. -/
def resolve2 (home a : String) : String := home ++ "/" ++ a

/-- Model of path.resolve(home, a, b) for relative segments a and b. -/
def resolve3 (home a b : String) : String := home ++ "/" ++ a ++ "/" ++ b

/-- Pointwise update of the tools registry at one command id. -/
def setTool (tools : String → ToolEntry) (cmd : String) (e : ToolEntry) :
    String → ToolEntry :=
  fun c => if c = cmd then e else tools c

/-! ## getVersion and selectTool (lines 141-174 of the source) -/

/-- Lines 141-163: if the file exists, run the binary with the version argument
and parse its stdout (when truthy) with the version regex; otherwise no version
is detected.  The second component records the external calls made. -/
def getVersion (w : World) (location : String) : Option String × List Event :=
  if w.existsAt location then
    let ev := [Event.fsExists location,
               Event.execCmd ("\"" ++ location ++ "\" version")]
    if w.execStdout location = "" then (none, ev)
    else (parseStdout (w.execStdout location), ev)
  else (none, [Event.fsExists location])

/-- Lines 165-174: scan the candidate list in order; a falsy candidate is
skipped by the guard without calling getVersion; the first candidate whose
detected version satisfies the range is returned, breaking the loop. -/
def selectTool (w : World) (locations : List (Option String)) (range : String) :
    Option String × List Event :=
  match locations with
  | [] => (none, [])
  | loc :: rest =>
    match loc with
    | none => selectTool w rest range
    | some l =>
      if l = "" then selectTool w rest range
      else
        let p := getVersion w l
        if satisfiesOpt w p.1 range then (some l, p.2)
        else
          let q := selectTool w rest range
          (q.1, p.2 ++ q.2)

/-! ## detectOrDownload (lines 41-139 of the source) -/

/-- Message of the initial install prompt button (line 67). -/
def installRequestMsg (entry : ToolEntry) : String :=
  "Download and install v" ++ entry.version

/-- Message of the initial prompt (line 69). -/
def cannotFindMsg (entry : ToolEntry) : String :=
  "Cannot find " ++ entry.description ++ " " ++ entry.versionRangeLabel ++ "."

/-- Message of the checksum mismatch prompt (line 98). -/
def mismatchMsg (entry : ToolEntry) : String :=
  "Checksum for downloaded " ++ entry.description ++ " v" ++ entry.version ++
    " is not correct."

/-- Lines 77-103: the download / checksum / retry do-while loop.  Each pass
downloads the file and hashes it; on digest mismatch the file is removed and
the user is prompted; the loop repeats while the answer is Download again.
Returns the final value of the action variable together with the event trace,
or none when the fuel is exhausted while the loop would repeat. -/
def downloadLoop (w : World) (entry : ToolEntry) (dl : String) :
    Nat → Nat → Option (Option String × List Event)
  | 0, _ => none
  | Nat.succ fuel, i =>
    let ev0 := [Event.download entry.url dl, Event.hashFile dl]
    if w.digests i = entry.sha256sum then
      some (none, ev0)
    else
      let action := w.retryResponses i
      let ev1 := ev0 ++ [Event.removeFile dl, Event.infoPrompt (mismatchMsg entry)]
      if action = some "Download again" then
        match downloadLoop w entry dl fuel (i + 1) with
        | none => none
        | some (a, evs) => some (a, ev1 ++ evs)
      else
        some (action, ev1)

/-- Result of the branch of lines 60-133: either the async function threw (the
promise rejects, so nothing after the throwing statement runs), or the branch
finished normally with the final value of the toolLocation variable.  The
event list records the external calls made, the throwing one included. -/
structure InstallOutcome where
  crashed : Bool
  tl : Option String
  ev : List Event
  deriving DecidableEq

/-- Whether a file exists at toolCacheLocation at the moment line 121 runs
fs.chmodSync on it (chmodSync throws ENOENT when its target does not exist).
The .gz branch of line 112 extracts directly to toolCacheLocation and so
creates it; whether a .zip or .tar.gz archive extracted into the .vs-kn
directory yields the cmdFileName file depends on the archive's contents, which
the world supplies; with no extraction the file exists exactly when it already
did, since nothing of this run touches it.  In every case, line 119 removes
toolDlLocation, so when cmdFileName and dlFileName coincide nothing is left. -/
def cacheReadyAfterInstall (w : World) (entry : ToolEntry) : Bool :=
  let toolDlLocation := resolve3 w.home ".vs-kn" entry.dlFileName
  let toolCacheLocation := resolve3 w.home ".vs-kn" entry.cmdFileName
  let produced :=
    if jsEndsWith toolDlLocation ".zip" || jsEndsWith toolDlLocation ".tar.gz" then
      w.extractedCmdFile
    else if jsEndsWith toolDlLocation ".gz" then true
    else w.existsAt toolCacheLocation
  if toolCacheLocation = toolDlLocation then false else produced

/-- Lines 60-133: the branch taken when no candidate satisfied the range.  The
initial prompt is shown and the .vs-kn directory ensured; on the install answer
the retry loop runs and, unless the final action is Cancel, the archive is
extracted when its name has a known suffix and the downloaded file is removed.
Off Windows line 121 then calls fs.chmodSync on toolCacheLocation: when no
file exists there the call throws ENOENT and the promise rejects, so line 123
never assigns the cache location; otherwise (and always on win32, where the
chmod is skipped) the cache location becomes the result. -/
def installFlow (w : World) (fuel : Nat) (entry : ToolEntry)
    (toolCacheLocation : String) : Option InstallOutcome :=
  let toolDlLocation := resolve3 w.home ".vs-kn" entry.dlFileName
  let ev1 := [Event.infoPrompt (cannotFindMsg entry),
              Event.ensureDir (resolve2 w.home ".vs-kn")]
  if w.initialResponse = some (installRequestMsg entry) then
    match downloadLoop w entry toolDlLocation fuel 0 with
    | none => none
    | some (action, loopEv) =>
      if action = some "Cancel" then
        some { crashed := false, tl := none, ev := ev1 ++ loopEv }
      else
        let exEv :=
          if jsEndsWith toolDlLocation ".zip" || jsEndsWith toolDlLocation ".tar.gz" then
            [Event.unzip toolDlLocation (resolve2 w.home ".vs-kn") entry.filePrefixName]
          else if jsEndsWith toolDlLocation ".gz" then
            [Event.unzip toolDlLocation toolCacheLocation entry.filePrefixName]
          else []
        let ev2 := ev1 ++ loopEv ++ exEv ++ [Event.removeFile toolDlLocation]
        if w.os = "win32" then
          some { crashed := false, tl := some toolCacheLocation, ev := ev2 }
        else if cacheReadyAfterInstall w entry then
          some { crashed := false, tl := some toolCacheLocation,
                 ev := ev2 ++ [Event.chmod toolCacheLocation] }
        else
          some { crashed := true, tl := none,
                 ev := ev2 ++ [Event.chmod toolCacheLocation] }
  else if w.initialResponse = some "Help" then
    some { crashed := false, tl := none, ev := ev1 ++ [Event.openHelp] }
  else
    some { crashed := false, tl := none, ev := ev1 }

/-- Lines 41-139: when the registry already has a location it is returned with
no external call; otherwise which is consulted, selectTool scans the candidate
list [which stdout, cache path], on failure the install flow runs, and finally
a truthy result is written back into tools[cmd].location (line 134).  A result
of none means the call produced no value: either the retry loop outran the
supplied fuel, or the run was aborted by the chmodSync throw, whose rejection
propagates out of the async function before the write of line 135 can run. -/
def detectOrDownload (w : World) (fuel : Nat) (tools : String → ToolEntry)
    (cmd : String) : Option (Option String × (String → ToolEntry) × List Event) :=
  let entry := tools cmd
  match entry.location with
  | some loc => some (some loc, tools, [])
  | none =>
    let toolCacheLocation := resolve3 w.home ".vs-kn" entry.cmdFileName
    let sel := selectTool w [w.whichResult, some toolCacheLocation] entry.versionRange
    let ev0 := Event.whichLookup cmd :: sel.2
    let afterInstall : Option (Option String × List Event) :=
      match sel.1 with
      | some l => some (some l, ev0)
      | none =>
        match installFlow w fuel entry toolCacheLocation with
        | none => none
        | some out => if out.crashed then none else some (out.tl, ev0 ++ out.ev)
    match afterInstall with
    | none => none
    | some (tl, ev) =>
      if truthyOpt tl then
        some (tl, setTool tools cmd { entry with location := tl }, ev)
      else
        some (tl, tools, ev)

/-! ## loadMetadata (lines 22-35 of the source)

A configuration entry is a bag of optional scalar properties plus an optional
per-OS override table; JS objects are modelled as association lists with
distinct keys.  loadMetadata starts from a deep copy of its input (the source
uses a JSON round trip, so the input object is never mutated; the Lean
rendering is pure by construction) and walks the key list of the input,
merging the current platform's overrides into each entry that carries a
platform table and dropping the entry when the table has no row for the
current platform. -/

/-- The optional scalar properties a configuration entry or an override row may
carry.  A field of none models an absent JSON key. -/
structure RawFields where
  version : Option String
  description : Option String
  versionRange : Option String
  versionRangeLabel : Option String
  url : Option String
  sha256sum : Option String
  dlFileName : Option String
  cmdFileName : Option String
  filePrefixName : Option String
  deriving DecidableEq

/-- One configuration entry: scalar properties plus the optional platform
override table, an association list keyed by OS name. -/
structure RawEntry where
  fields : RawFields
  platform : Option (List (String × RawFields))
  deriving DecidableEq

/-- Property read on a JS object modelled as an association list. -/
def lookupKey {α : Type} (k : String) : List (String × α) → Option α
  | [] => none
  | (k2, v) :: rest => if k = k2 then some v else lookupKey k rest

/-- Property write on a key that is present (JS assignment to an existing key). -/
def setKey {α : Type} (k : String) (v : α) : List (String × α) → List (String × α)
  | [] => []
  | (k2, w) :: rest => if k2 = k then (k2, v) :: rest else (k2, w) :: setKey k v rest

/-- JS delete of a key from an object. -/
def eraseKey {α : Type} (k : String) : List (String × α) → List (String × α)
  | [] => []
  | (k2, w) :: rest => if k2 = k then rest else (k2, w) :: eraseKey k rest

/-- The key list of an object, in insertion order. -/
def keysOf {α : Type} (l : List (String × α)) : List String :=
  l.map Prod.fst

/-- Object.assign(entry, overrides) on the scalar properties: a property present
in the override row wins, an absent one keeps the entry's value. -/
def mergeFields (base ov : RawFields) : RawFields where
  version := (ov.version).elim base.version some
  description := (ov.description).elim base.description some
  versionRange := (ov.versionRange).elim base.versionRange some
  versionRangeLabel := (ov.versionRangeLabel).elim base.versionRangeLabel some
  url := (ov.url).elim base.url some
  sha256sum := (ov.sha256sum).elim base.sha256sum some
  dlFileName := (ov.dlFileName).elim base.dlFileName some
  cmdFileName := (ov.cmdFileName).elim base.cmdFileName some
  filePrefixName := (ov.filePrefixName).elim base.filePrefixName some

/-- The body of the for-in loop of loadMetadata for one key: when the entry at
that key carries a platform table, either merge the row of the current OS into
the entry and drop the platform property, or, when the table has no such row,
delete the entry. -/
def stepKey (osName : String) (reqs : List (String × RawEntry)) (key : String) :
    List (String × RawEntry) :=
  match lookupKey key reqs with
  | none => reqs
  | some e =>
    match e.platform with
    | none => reqs
    | some table =>
      match lookupKey osName table with
      | some ov => setKey key { fields := mergeFields e.fields ov, platform := none } reqs
      | none => eraseKey key reqs

/-- Lines 22-35: fold the loop body over the key list of the input, starting
from the (deep copy of the) input itself. -/
def loadMetadata (requirements : List (String × RawEntry)) (osName : String) :
    List (String × RawEntry) :=
  (keysOf requirements).foldl (stepKey osName) requirements

/-- The per-entry effect loadMetadata is claimed to have: entries without a
platform table survive unchanged, entries with a row for the current OS are
merged with the platform property removed, entries without such a row are
dropped. -/
def entryTransform (osName : String) (e : RawEntry) : Option RawEntry :=
  match e.platform with
  | none => some e
  | some table =>
    (lookupKey osName table).map fun ov =>
      { fields := mergeFields e.fields ov, platform := none }

/-! ## Derived predicates and concrete scenarios used by the theorems -/

/-- The acceptance condition of one candidate, as the spec states it: a null
candidate has no detected version; a path candidate is accepted when its
detected version satisfies the range. -/
def candidateSatisfies (w : World) (r : String) : Option String → Bool
  | none => false
  | some l => satisfiesOpt w (getVersion w l).1 r

def entryC2 : ToolEntry :=
  { location := none, cmdFileName := "kn.exe", dlFileName := "kn-windows-amd64.exe",
    version := "0.9.0", description := "Knative Client",
    versionRangeLabel := "version v0.9.0", versionRange := "v0.9.0",
    url := "https://example.com/kn-windows-amd64.exe", sha256sum := "1111",
    filePrefixName := "" }

def toolsC2 : String → ToolEntry := fun _ => entryC2

def worldC2 : World :=
  { existsAt := fun _ => false, execStdout := fun _ => "",
    satisfiesV := fun _ _ => false, whichResult := none, home := "/home/user",
    os := "win32", initialResponse := some "Download and install v0.9.0",
    digests := fun _ => "2222", retryResponses := fun _ => none,
    extractedCmdFile := false }

def cacheC2 : String := "/home/user/.vs-kn/kn.exe"

def dlC2 : String := "/home/user/.vs-kn/kn-windows-amd64.exe"

def entryC3 : ToolEntry :=
  { location := none, cmdFileName := "kn", dlFileName := "kn-linux-amd64",
    version := "0.9.0", description := "Knative Client",
    versionRangeLabel := "version v0.9.0", versionRange := "v0.9.0",
    url := "https://example.com/kn-linux-amd64", sha256sum := "1111",
    filePrefixName := "" }

def toolsC3 : String → ToolEntry := fun _ => entryC3

def worldC3 : World :=
  { existsAt := fun p => if p = "/home/user/.vs-kn/kn" then true else false,
    execStdout := fun p =>
      if p = "/home/user/.vs-kn/kn" then "Version:      v0.8.0" else "",
    satisfiesV := fun _ _ => false, whichResult := none, home := "/home/user",
    os := "linux", initialResponse := some "Download and install v0.9.0",
    digests := fun _ => "1111", retryResponses := fun _ => none,
    extractedCmdFile := false }

def cacheC3 : String := "/home/user/.vs-kn/kn"

def worldSat : World :=
  { existsAt := fun p => if p = "/opt/kn/kn" then true else false,
    execStdout := fun p => if p = "/opt/kn/kn" then "Version:      v0.9.0" else "",
    satisfiesV := fun v _ => if v = "0.9.0" then true else false,
    whichResult := none, home := "/home/user", os := "linux",
    initialResponse := none, digests := fun _ => "", retryResponses := fun _ => none,
    extractedCmdFile := false }

def entryC4 : ToolEntry :=
  { location := none, cmdFileName := "kn.exe", dlFileName := "kn-windows-amd64.exe",
    version := "0.9.0", description := "Knative Client",
    versionRangeLabel := "version v0.9.0", versionRange := "v0.9.0",
    url := "https://example.com/kn-windows-amd64.exe", sha256sum := "1111",
    filePrefixName := "" }

def toolsC4 : String → ToolEntry := fun _ => entryC4

def worldC4 : World :=
  { existsAt := fun _ => false, execStdout := fun _ => "",
    satisfiesV := fun _ _ => false, whichResult := none, home := "/home/user",
    os := "win32", initialResponse := some "Download and install v0.9.0",
    digests := fun _ => "1111", retryResponses := fun _ => none,
    extractedCmdFile := false }

/-- The same install attempt off Windows, with nothing at the cache path: the
run reaches the chmodSync of line 121 and is aborted by its ENOENT throw. -/
def worldC4L : World :=
  { existsAt := fun _ => false, execStdout := fun _ => "",
    satisfiesV := fun _ _ => false, whichResult := none, home := "/home/user",
    os := "linux", initialResponse := some "Download and install v0.9.0",
    digests := fun _ => "1111", retryResponses := fun _ => none,
    extractedCmdFile := false }

def cacheC4 : String := "/home/user/.vs-kn/kn.exe"

def dlC4 : String := "/home/user/.vs-kn/kn-windows-amd64.exe"

/-- Boolean recogniser of extraction events. -/
def isUnzipB : Event → Bool
  | .unzip _ _ _ => true
  | _ => false

def worldC1 : World :=
  { existsAt := fun p =>
      if p = "/usr/bin/kn" then true else if p = "/opt/kn/kn" then true else false,
    execStdout := fun p =>
      if p = "/usr/bin/kn" then "Version:      v0.8.0"
      else if p = "/opt/kn/kn" then "Version:      v0.9.0" else "",
    satisfiesV := fun v _ => if v = "0.9.0" then true else false,
    whichResult := none, home := "/home/user", os := "linux",
    initialResponse := none, digests := fun _ => "",
    retryResponses := fun _ => none, extractedCmdFile := false }

def locsC1 : List (Option String) := [none, some "/usr/bin/kn", some "/opt/kn/kn"]

def entryC5 : ToolEntry :=
  { location := some "/usr/local/bin/kn", cmdFileName := "kn",
    dlFileName := "kn-linux-amd64", version := "0.9.0",
    description := "Knative Client", versionRangeLabel := "version v0.9.0",
    versionRange := "v0.9.0", url := "https://example.com/kn-linux-amd64",
    sha256sum := "1111", filePrefixName := "" }

def toolsC5 : String → ToolEntry := fun _ => entryC5

def worldC5 : World :=
  { existsAt := fun _ => false, execStdout := fun _ => "",
    satisfiesV := fun _ _ => false, whichResult := none, home := "/home/user",
    os := "linux", initialResponse := none, digests := fun _ => "",
    retryResponses := fun _ => none, extractedCmdFile := false }

def entryC7set : ToolEntry :=
  { location := some "/usr/local/bin/func", cmdFileName := "func",
    dlFileName := "func-linux-amd64", version := "0.9.0",
    description := "Knative func CLI", versionRangeLabel := "version v0.9.0",
    versionRange := "v0.9.0", url := "https://example.com/func-linux-amd64",
    sha256sum := "3333", filePrefixName := "" }

def toolsC7 : String → ToolEntry :=
  fun c => if c = "func" then entryC7set else entryC4

def worldC7 : World :=
  { existsAt := fun _ => false, execStdout := fun _ => "",
    satisfiesV := fun _ _ => false, whichResult := none, home := "/home/user",
    os := "win32", initialResponse := some "Download and install v0.9.0",
    digests := fun _ => "1111", retryResponses := fun _ => none,
    extractedCmdFile := false }

def outC7 : Option String × (String → ToolEntry) × List Event :=
  (detectOrDownload worldC7 1 toolsC7 "kn").getD (none, toolsC7, [])

def toolsC8 : String → ToolEntry := fun _ => entryC4

def worldC8 : World :=
  { existsAt := fun _ => false, execStdout := fun _ => "",
    satisfiesV := fun _ _ => false, whichResult := none, home := "/home/user",
    os := "linux", initialResponse := none, digests := fun _ => "",
    retryResponses := fun _ => none, extractedCmdFile := false }

def noFields : RawFields :=
  { version := none, description := none, versionRange := none,
    versionRangeLabel := none, url := none, sha256sum := none,
    dlFileName := none, cmdFileName := none, filePrefixName := none }

def baseFieldsEx : RawFields :=
  { noFields with version := some "0.9.0", description := some "Knative Client",
                  versionRange := some "v0.9.0" }

def linuxOverrideEx : RawFields :=
  { noFields with url := some "https://example.com/kn-linux-amd64",
                  sha256sum := some "1111", dlFileName := some "kn-linux-amd64",
                  cmdFileName := some "kn" }

def reqsEx : List (String × RawEntry) :=
  [("kn", { fields := baseFieldsEx,
            platform := some [("linux", linuxOverrideEx)] }),
   ("other", { fields := baseFieldsEx,
               platform := some [("darwin", linuxOverrideEx)] }),
   ("plain", { fields := baseFieldsEx, platform := none })]

/-! ## Helper lemmas -/

theorem installRequest_ne_cancel (entry : ToolEntry) :
    installRequestMsg entry ≠ "Cancel" := by
  intro h
  have h2 := congrArg String.length h
  simp [installRequestMsg, String.length_append] at h2
  have h22 : "Download and install v".length = 22 := rfl
  have h6 : "Cancel".length = 6 := rfl
  rw [h22, h6] at h2
  omega

theorem installRequest_ne_help (entry : ToolEntry) :
    installRequestMsg entry ≠ "Help" := by
  intro h
  have h2 := congrArg String.length h
  simp [installRequestMsg, String.length_append] at h2
  have h22 : "Download and install v".length = 22 := rfl
  have h4 : "Help".length = 4 := rfl
  rw [h22, h4] at h2
  omega

theorem resolve3_ne_empty (h a b : String) : resolve3 h a b ≠ "" := by
  intro hEq
  have h2 := congrArg String.length hEq
  simp only [resolve3, String.length_append] at h2
  have h1 : ("/" : String).length = 1 := rfl
  have h0 : ("" : String).length = 0 := rfl
  rw [h1, h0] at h2
  omega

theorem getVersion_no_unzip (w : World) (l s d p : String) :
    Event.unzip s d p ∉ (getVersion w l).2 := by
  unfold getVersion
  split
  · split <;> simp
  · simp

theorem selectTool_no_unzip (w : World) (locs : List (Option String))
    (r s d p : String) : Event.unzip s d p ∉ (selectTool w locs r).2 := by
  induction locs with
  | nil => simp [selectTool]
  | cons loc rest ih =>
    cases loc with
    | none => simpa [selectTool] using ih
    | some l =>
      by_cases hl : l = ""
      · simpa [selectTool, hl] using ih
      · cases hs : satisfiesOpt w (getVersion w l).1 r with
        | true =>
          simpa [selectTool, hl, hs] using getVersion_no_unzip w l s d p
        | false =>
          simp only [selectTool, hl, hs, if_false, if_neg, List.mem_append]
          simp [List.mem_append]
          exact ⟨getVersion_no_unzip w l s d p, ih⟩

theorem downloadLoop_no_unzip (w : World) (entry : ToolEntry) (dl s d p : String) :
    ∀ fuel i a ev, downloadLoop w entry dl fuel i = some (a, ev) →
      Event.unzip s d p ∉ ev := by
  intro fuel
  induction fuel with
  | zero => intro i a ev h; simp [downloadLoop] at h
  | succ n ih =>
    intro i a ev h
    simp only [downloadLoop] at h
    by_cases hd : w.digests i = entry.sha256sum
    · rw [if_pos hd] at h
      simp only [Option.some.injEq, Prod.mk.injEq] at h
      obtain ⟨h1, h2⟩ := h
      subst h2
      simp
    · rw [if_neg hd] at h
      by_cases hr : w.retryResponses i = some "Download again"
      · rw [if_pos hr] at h
        cases hloop : downloadLoop w entry dl n (i + 1) with
        | none => rw [hloop] at h; exact absurd h (by simp)
        | some pr =>
          obtain ⟨a2, ev2⟩ := pr
          rw [hloop] at h
          simp only [Option.some.injEq, Prod.mk.injEq] at h
          obtain ⟨h1, h2⟩ := h
          subst h2
          have h3 := ih (i + 1) a2 ev2 hloop
          simp [List.mem_append, h3]
      · rw [if_neg hr] at h
        simp only [Option.some.injEq, Prod.mk.injEq] at h
        obtain ⟨h1, h2⟩ := h
        subst h2
        simp

theorem installFlow_no_unzip (w : World) (fuel : Nat) (entry : ToolEntry)
    (cache : String) (out : InstallOutcome) (s d p : String)
    (hz : jsEndsWith (resolve3 w.home ".vs-kn" entry.dlFileName) ".zip" = false)
    (ht : jsEndsWith (resolve3 w.home ".vs-kn" entry.dlFileName) ".tar.gz" = false)
    (hg : jsEndsWith (resolve3 w.home ".vs-kn" entry.dlFileName) ".gz" = false)
    (h : installFlow w fuel entry cache = some out) :
    Event.unzip s d p ∉ out.ev := by
  simp only [installFlow, hz, ht, hg, Bool.or_self, Bool.false_eq_true,
    if_false, List.append_nil] at h
  split at h
  · split at h
    · exact absurd h (by simp)
    · rename_i action loopEv heq
      have hloop := downloadLoop_no_unzip w entry
        (resolve3 w.home ".vs-kn" entry.dlFileName) s d p fuel 0 action loopEv heq
      repeat' split at h
      all_goals
        injection h with h2
      all_goals
        subst h2
      all_goals
        simp [List.mem_append, hloop]
  · split at h <;>
      · injection h with h2
        subst h2
        simp

theorem detectOrDownload_no_unzip_of_unsupported (w : World) (fuel : Nat)
    (tools tools' : String → ToolEntry) (cmd : String) (res : Option String)
    (ev : List Event)
    (hz : jsEndsWith (resolve3 w.home ".vs-kn" (tools cmd).dlFileName) ".zip" = false)
    (ht : jsEndsWith (resolve3 w.home ".vs-kn" (tools cmd).dlFileName) ".tar.gz" = false)
    (hg : jsEndsWith (resolve3 w.home ".vs-kn" (tools cmd).dlFileName) ".gz" = false)
    (h : detectOrDownload w fuel tools cmd = some (res, tools', ev)) :
    ∀ s d p, Event.unzip s d p ∉ ev := by
  intro s d p
  have hsel := selectTool_no_unzip w
    [w.whichResult, some (resolve3 w.home ".vs-kn" (tools cmd).cmdFileName)]
    (tools cmd).versionRange s d p
  rcases hloc : (tools cmd).location with _ | loc
  · simp only [detectOrDownload, hloc] at h
    split at h
    · exact absurd h (by simp)
    · rename_i a2 ev2 heq
      have hev : ev = ev2 := by
        split at h <;>
          · simp only [Option.some.injEq, Prod.mk.injEq] at h
            exact h.2.2.symm
      rw [hev]
      split at heq
      · simp only [Option.some.injEq, Prod.mk.injEq] at heq
        obtain ⟨h1, h2⟩ := heq
        subst h2
        simp [hsel]
      · split at heq
        · exact absurd heq (by simp)
        · rename_i out heq2
          have hiev := installFlow_no_unzip w fuel (tools cmd)
            (resolve3 w.home ".vs-kn" (tools cmd).cmdFileName) out s d p hz ht hg heq2
          split at heq
          · exact absurd heq (by simp)
          · simp only [Option.some.injEq, Prod.mk.injEq] at heq
            obtain ⟨h1, h2⟩ := heq
            subst h2
            simp [List.mem_append, hsel, hiev]
  · simp only [detectOrDownload, hloc, Option.some.injEq, Prod.mk.injEq] at h
    obtain ⟨h1, h2, h3⟩ := h
    subst h3
    simp

theorem detectOrDownload_install_completes (w : World) (fuel : Nat)
    (tools : String → ToolEntry) (cmd : String) (action : Option String)
    (lev : List Event)
    (h0 : (tools cmd).location = none)
    (h1 : (selectTool w [w.whichResult,
            some (resolve3 w.home ".vs-kn" (tools cmd).cmdFileName)]
            (tools cmd).versionRange).1 = none)
    (h2 : w.initialResponse = some (installRequestMsg (tools cmd)))
    (h3 : downloadLoop w (tools cmd)
            (resolve3 w.home ".vs-kn" (tools cmd).dlFileName) fuel 0
            = some (action, lev))
    (h4 : action ≠ some "Cancel")
    (h5 : w.os = "win32" ∨ cacheReadyAfterInstall w (tools cmd) = true) :
    (detectOrDownload w fuel tools cmd).map (fun x => (x.1, (x.2.1 cmd).location))
      = some (some (resolve3 w.home ".vs-kn" (tools cmd).cmdFileName),
              some (resolve3 w.home ".vs-kn" (tools cmd).cmdFileName)) := by
  have hne := resolve3_ne_empty w.home ".vs-kn" (tools cmd).cmdFileName
  rcases h5 with h5 | h5
  · simp [detectOrDownload, h0, h1, installFlow, h2, h3, h4, truthyOpt, hne,
      setTool, h5]
  · by_cases hw : w.os = "win32" <;>
      simp [detectOrDownload, h0, h1, installFlow, h2, h3, h4, truthyOpt, hne,
        setTool, hw, h5]

theorem detectOrDownload_install_crashes (w : World) (fuel : Nat)
    (tools : String → ToolEntry) (cmd : String) (action : Option String)
    (lev : List Event)
    (h0 : (tools cmd).location = none)
    (h1 : (selectTool w [w.whichResult,
            some (resolve3 w.home ".vs-kn" (tools cmd).cmdFileName)]
            (tools cmd).versionRange).1 = none)
    (h2 : w.initialResponse = some (installRequestMsg (tools cmd)))
    (h3 : downloadLoop w (tools cmd)
            (resolve3 w.home ".vs-kn" (tools cmd).dlFileName) fuel 0
            = some (action, lev))
    (h4 : action ≠ some "Cancel")
    (h5 : ¬ w.os = "win32")
    (h6 : cacheReadyAfterInstall w (tools cmd) = false) :
    detectOrDownload w fuel tools cmd = none := by
  simp [detectOrDownload, h0, h1, installFlow, h2, h3, h4, h5, h6]

theorem detectOrDownload_state (w : World) (fuel : Nat)
    (tools tools' : String → ToolEntry) (cmd : String) (res : Option String)
    (ev : List Event)
    (h : detectOrDownload w fuel tools cmd = some (res, tools', ev)) :
    tools' = tools
      ∨ ((tools cmd).location = none ∧ ∃ e, tools' = setTool tools cmd e) := by
  rcases hloc : (tools cmd).location with _ | loc
  · simp only [detectOrDownload, hloc] at h
    repeat' split at h
    all_goals simp only [Option.some.injEq, Prod.mk.injEq, reduceCtorEq] at h
    all_goals obtain ⟨h1, h2, h3⟩ := h
    · exact Or.inr ⟨hloc ▸ rfl, _, h2.symm⟩
    · exact Or.inl h2.symm
  · simp only [detectOrDownload, hloc, Option.some.injEq, Prod.mk.injEq] at h
    exact Or.inl h.2.1.symm

theorem lookupKey_setKey_self {α : Type} (k : String) (v : α)
    (l : List (String × α)) :
    lookupKey k (setKey k v l) = (lookupKey k l).map (fun _ => v) := by
  induction l with
  | nil => simp [setKey, lookupKey]
  | cons hd rest ih =>
    obtain ⟨k2, w⟩ := hd
    by_cases hk : k2 = k
    · subst hk
      simp [setKey, lookupKey]
    · simp [setKey, lookupKey, hk, Ne.symm hk, ih]

theorem lookupKey_setKey_ne {α : Type} (k k2 : String) (v : α)
    (l : List (String × α)) (h : k ≠ k2) :
    lookupKey k (setKey k2 v l) = lookupKey k l := by
  induction l with
  | nil => simp [setKey, lookupKey]
  | cons hd rest ih =>
    obtain ⟨k3, w⟩ := hd
    by_cases hk : k3 = k2
    · subst hk
      simp [setKey, lookupKey, h, ih]
    · simp [setKey, lookupKey, hk, ih]

theorem lookupKey_eraseKey_ne {α : Type} (k k2 : String)
    (l : List (String × α)) (h : k ≠ k2) :
    lookupKey k (eraseKey k2 l) = lookupKey k l := by
  induction l with
  | nil => simp [eraseKey, lookupKey]
  | cons hd rest ih =>
    obtain ⟨k3, w⟩ := hd
    by_cases hk : k3 = k2
    · subst hk
      simp [eraseKey, lookupKey, h, ih]
    · simp [eraseKey, lookupKey, hk, ih]

theorem lookupKey_of_not_mem {α : Type} (k : String) (l : List (String × α))
    (h : k ∉ keysOf l) : lookupKey k l = none := by
  induction l with
  | nil => simp [lookupKey]
  | cons hd rest ih =>
    obtain ⟨k2, w⟩ := hd
    simp only [keysOf, List.map_cons, List.mem_cons] at h
    push_neg at h
    simp [lookupKey, h.1, ih (by simpa [keysOf] using h.2)]

theorem lookupKey_eraseKey_self {α : Type} (k : String) (l : List (String × α))
    (h : (keysOf l).Nodup) : lookupKey k (eraseKey k l) = none := by
  induction l with
  | nil => simp [eraseKey, lookupKey]
  | cons hd rest ih =>
    obtain ⟨k2, w⟩ := hd
    simp only [keysOf, List.map_cons, List.nodup_cons] at h
    by_cases hk : k2 = k
    · subst hk
      simp only [eraseKey, if_pos rfl]
      exact lookupKey_of_not_mem k2 rest h.1
    · simp [eraseKey, hk, lookupKey, Ne.symm hk]
      exact ih h.2

theorem keysOf_setKey {α : Type} (k : String) (v : α) (l : List (String × α)) :
    keysOf (setKey k v l) = keysOf l := by
  induction l with
  | nil => simp [setKey]
  | cons hd rest ih =>
    obtain ⟨k2, w⟩ := hd
    by_cases hk : k2 = k
    · simp [setKey, hk, keysOf]
    · simp only [setKey, if_neg hk, keysOf, List.map_cons, List.cons.injEq, true_and]
      simpa [keysOf] using ih

theorem eraseKey_sublist {α : Type} (k : String) (l : List (String × α)) :
    List.Sublist (eraseKey k l) l := by
  induction l with
  | nil => simp [eraseKey]
  | cons hd rest ih =>
    obtain ⟨k2, w⟩ := hd
    by_cases hk : k2 = k
    · simp only [eraseKey, if_pos hk]
      exact List.sublist_cons_self (k2, w) rest
    · simp only [eraseKey, if_neg hk]
      exact List.Sublist.cons₂ (k2, w) ih

theorem nodup_stepKey (osName : String) (m : List (String × RawEntry))
    (k2 : String) (h : (keysOf m).Nodup) : (keysOf (stepKey osName m k2)).Nodup := by
  unfold stepKey
  split
  · exact h
  · split
    · exact h
    · split
      · rw [keysOf_setKey]; exact h
      · exact ((eraseKey_sublist k2 m).map Prod.fst).nodup h

theorem lookupKey_stepKey_ne (osName : String) (m : List (String × RawEntry))
    (k k2 : String) (h : k ≠ k2) :
    lookupKey k (stepKey osName m k2) = lookupKey k m := by
  unfold stepKey
  split
  · rfl
  · split
    · rfl
    · split
      · exact lookupKey_setKey_ne k k2 _ m h
      · exact lookupKey_eraseKey_ne k k2 m h

theorem lookupKey_stepKey_self (osName : String) (m : List (String × RawEntry))
    (k : String) (h : (keysOf m).Nodup) :
    lookupKey k (stepKey osName m k) = (lookupKey k m).bind (entryTransform osName) := by
  unfold stepKey
  rcases hm : lookupKey k m with _ | e
  · simp [hm]
  · simp only [hm]
    rcases hp : e.platform with _ | table
    · simp [hm, entryTransform, hp]
    · simp only [hp]
      rcases hos : lookupKey osName table with _ | ov
      · simp only [hos]
        rw [lookupKey_eraseKey_self k m h]
        simp [entryTransform, hp, hos]
      · simp only [hos]
        rw [lookupKey_setKey_self]
        simp [hm, entryTransform, hp, hos]

theorem foldl_stepKey_not_mem (osName : String) (ks : List String)
    (m : List (String × RawEntry)) (k : String) (h : k ∉ ks) :
    lookupKey k (ks.foldl (stepKey osName) m) = lookupKey k m := by
  induction ks generalizing m with
  | nil => rfl
  | cons k0 rest ih =>
    simp only [List.mem_cons] at h
    push_neg at h
    rw [List.foldl_cons, ih _ h.2, lookupKey_stepKey_ne osName m k k0 h.1]

theorem foldl_stepKey_mem (osName : String) (ks : List String)
    (m : List (String × RawEntry)) (k : String) (hks : ks.Nodup)
    (hm : (keysOf m).Nodup) (h : k ∈ ks) :
    lookupKey k (ks.foldl (stepKey osName) m)
      = (lookupKey k m).bind (entryTransform osName) := by
  induction ks generalizing m with
  | nil => simp at h
  | cons k0 rest ih =>
    rw [List.nodup_cons] at hks
    rw [List.foldl_cons]
    rcases List.mem_cons.mp h with rfl | hmem
    · rw [foldl_stepKey_not_mem osName rest (stepKey osName m k) k hks.1]
      exact lookupKey_stepKey_self osName m k hm
    · have hne : k ≠ k0 := fun hEq => hks.1 (hEq ▸ hmem)
      rw [ih (stepKey osName m k0) hks.2 (nodup_stepKey osName m k0 hm) hmem,
          lookupKey_stepKey_ne osName m k k0 hne]

/-! ## Claim theorems and their witnesses -/

/-- C1: selectTool returns the first candidate in list order whose detected
version satisfies the range, and none when no candidate satisfies it.  The
hypothesis records the filesystem fact that no file exists at the empty path,
under which the falsy-string guard of the source agrees with acceptance by
detected version. -/
theorem selectTool_first_satisfying (w : World) (locs : List (Option String))
    (r : String) (h : w.existsAt "" = false) :
    (selectTool w locs r).1 = Option.join (List.find? (candidateSatisfies w r) locs) := by
  induction locs with
  | nil => simp [selectTool]
  | cons loc rest ih =>
    cases loc with
    | none =>
      rw [List.find?_cons_of_neg _ (by simp [candidateSatisfies])]
      simpa [selectTool] using ih
    | some l =>
      by_cases hl : l = ""
      · subst hl
        have hg : (getVersion w "").1 = none := by simp [getVersion, h]
        rw [List.find?_cons_of_neg _ (by simp [candidateSatisfies, hg, satisfiesOpt])]
        simpa [selectTool] using ih
      · cases hs : satisfiesOpt w (getVersion w l).1 r with
        | true =>
          rw [List.find?_cons_of_pos _ (by simp [candidateSatisfies, hs])]
          simp [selectTool, hl, hs]
        | false =>
          rw [List.find?_cons_of_neg _ (by simp [candidateSatisfies, hs])]
          simpa [selectTool, hl, hs] using ih

/-- Witness for C1 at a concrete world: the second existing candidate is the
first whose version satisfies the range and is returned. -/
theorem selectTool_first_satisfying_witness :
    worldC1.existsAt "" = false
    ∧ (selectTool worldC1 locsC1 ">=0.9.0").1
        = Option.join (List.find? (candidateSatisfies worldC1 ">=0.9.0") locsC1)
    ∧ (selectTool worldC1 locsC1 ">=0.9.0").1 = some "/opt/kn/kn" :=
  ⟨rfl, selectTool_first_satisfying worldC1 locsC1 ">=0.9.0" rfl, by decide⟩

/-- C2: refutation of the claim at a concrete input, exhibiting the underlying
code bug: the downloaded digest differs from the expected checksum and the file
is removed, yet because the user dismisses the mismatch prompt (the
showInformationMessage promise resolves to undefined), the final action passes
the test against Cancel and the flow records the cache path as the resolved
location of the tool. -/
theorem mismatch_dismiss_marks_resolved :
    (toolsC2 "kn").location = none
    ∧ worldC2.digests 0 ≠ (toolsC2 "kn").sha256sum
    ∧ (detectOrDownload worldC2 1 toolsC2 "kn").map (fun x => x.1)
        = some (some cacheC2)
    ∧ (detectOrDownload worldC2 1 toolsC2 "kn").map
        (fun x => (x.2.1 "kn").location) = some (some cacheC2)
    ∧ (detectOrDownload worldC2 1 toolsC2 "kn").map
        (fun x => x.2.2.contains (Event.removeFile dlC2)) = some true := by
  decide

/-- Counterexample to C3: a completed install records the cache path as the
resolved location even though its detected version satisfies no range.  A file
reporting v0.8.0 already sits at the cache path, which is why the chmodSync of
line 121 succeeds and the run completes; its version fails the range, so
selection had fallen through, yet the install records the path unchecked. -/
theorem install_records_unverified_location :
    (detectOrDownload worldC3 1 toolsC3 "kn").map
        (fun x => (x.2.1 "kn").location) = some (some cacheC3)
    ∧ (getVersion worldC3 cacheC3).1 = some "0.8.0"
    ∧ satisfiesOpt worldC3 (getVersion worldC3 cacheC3).1
        (toolsC3 "kn").versionRange = false := by
  decide

/-- C3 (amended): every path recorded through candidate selection has a
detected version satisfying the range; a candidate whose detected version does
not satisfy the range is never returned by selectTool.  The original claim is
false for the install path, which records the cache location without any
version check. -/
theorem selectTool_result_satisfies (w : World) (locs : List (Option String))
    (r l : String) (h : (selectTool w locs r).1 = some l) :
    satisfiesOpt w (getVersion w l).1 r = true := by
  induction locs with
  | nil => simp [selectTool] at h
  | cons loc rest ih =>
    cases loc with
    | none => exact ih (by simpa [selectTool] using h)
    | some l2 =>
      by_cases hl : l2 = ""
      · subst hl
        exact ih (by simpa [selectTool] using h)
      · cases hs : satisfiesOpt w (getVersion w l2).1 r with
        | true =>
          have : l2 = l := by simpa [selectTool, hl, hs] using h
          rw [← this]; exact hs
        | false =>
          exact ih (by simpa [selectTool, hl, hs] using h)

/-- Witness for the amended C3 at a concrete world with a satisfying
candidate. -/
theorem selectTool_result_satisfies_witness :
    (selectTool worldSat [none, some "/opt/kn/kn"] ">=0.9.0").1 = some "/opt/kn/kn"
    ∧ satisfiesOpt worldSat (getVersion worldSat "/opt/kn/kn").1 ">=0.9.0" = true :=
  ⟨by decide,
   selectTool_result_satisfies worldSat [none, some "/opt/kn/kn"] ">=0.9.0"
     "/opt/kn/kn" (by decide)⟩

/-- Counterexample to C4: on win32, with a download name ending in no
supported archive extension, no extraction event occurs, but the install flow
does not abort: it still completes and records the cache path as the resolved
location (no chmod runs on win32, so nothing can throw). -/
theorem unsupported_extension_not_aborted :
    jsEndsWith dlC4 ".zip" = false
    ∧ jsEndsWith dlC4 ".tar.gz" = false
    ∧ jsEndsWith dlC4 ".gz" = false
    ∧ (detectOrDownload worldC4 1 toolsC4 "kn").map
        (fun x => x.2.2.any isUnzipB) = some false
    ∧ (detectOrDownload worldC4 1 toolsC4 "kn").map
        (fun x => (x.2.1 "kn").location) = some (some cacheC4) := by
  decide

/-- C4 (amended): when the download name ends with an unsupported archive
extension no extraction is ever performed, but there is no abort check for it:
whenever the checksum loop finishes with a final action other than Cancel, the
flow completes on win32, and off win32 exactly when a file is present at the
cache path so that chmodSync succeeds, in both cases returning the cache
location and recording it as resolved; off win32 with nothing at the cache
path the run is instead aborted by the ENOENT throw of chmodSync, not by an
UnsupportedArchiveFormat error, and produces no value. -/
theorem detectOrDownload_unsupported_extension (w : World) (fuel : Nat)
    (tools : String → ToolEntry) (cmd : String)
    (hz : jsEndsWith (resolve3 w.home ".vs-kn" (tools cmd).dlFileName) ".zip" = false)
    (ht : jsEndsWith (resolve3 w.home ".vs-kn" (tools cmd).dlFileName) ".tar.gz" = false)
    (hg : jsEndsWith (resolve3 w.home ".vs-kn" (tools cmd).dlFileName) ".gz" = false) :
    (∀ res tools' ev, detectOrDownload w fuel tools cmd = some (res, tools', ev) →
        ∀ s d p, Event.unzip s d p ∉ ev)
    ∧ ((tools cmd).location = none →
        (selectTool w [w.whichResult,
            some (resolve3 w.home ".vs-kn" (tools cmd).cmdFileName)]
            (tools cmd).versionRange).1 = none →
        w.initialResponse = some (installRequestMsg (tools cmd)) →
        ∀ action lev,
          downloadLoop w (tools cmd)
            (resolve3 w.home ".vs-kn" (tools cmd).dlFileName) fuel 0
            = some (action, lev) →
          action ≠ some "Cancel" →
          ((w.os = "win32" ∨ cacheReadyAfterInstall w (tools cmd) = true) →
              (detectOrDownload w fuel tools cmd).map
                  (fun x => (x.1, (x.2.1 cmd).location))
                = some (some (resolve3 w.home ".vs-kn" (tools cmd).cmdFileName),
                        some (resolve3 w.home ".vs-kn" (tools cmd).cmdFileName)))
          ∧ (¬ w.os = "win32" → cacheReadyAfterInstall w (tools cmd) = false →
              detectOrDownload w fuel tools cmd = none)) :=
  ⟨fun res tools' ev h =>
      detectOrDownload_no_unzip_of_unsupported w fuel tools tools' cmd res ev
        hz ht hg h,
   fun h0 h1 h2 action lev h3 h4 =>
     ⟨fun h5 =>
        detectOrDownload_install_completes w fuel tools cmd action lev
          h0 h1 h2 h3 h4 h5,
      fun h5 h6 =>
        detectOrDownload_install_crashes w fuel tools cmd action lev
          h0 h1 h2 h3 h4 h5 h6⟩⟩

/-- Witness for the amended C4: the same concrete install run completes and
records the cache path on win32, and is aborted by the chmodSync throw on
linux where nothing exists at the cache path. -/
theorem detectOrDownload_unsupported_extension_witness :
    ((detectOrDownload worldC4 1 toolsC4 "kn").map
        (fun x => (x.1, (x.2.1 "kn").location))
      = some (some cacheC4, some cacheC4))
    ∧ detectOrDownload worldC4L 1 toolsC4 "kn" = none :=
  ⟨((detectOrDownload_unsupported_extension worldC4 1 toolsC4 "kn"
        (by decide) (by decide) (by decide)).2
      rfl (by decide) rfl none
      [Event.download entryC4.url dlC4, Event.hashFile dlC4] rfl
      (fun hx => Option.noConfusion hx)).1 (Or.inl rfl),
   ((detectOrDownload_unsupported_extension worldC4L 1 toolsC4 "kn"
        (by decide) (by decide) (by decide)).2
      rfl (by decide) rfl none
      [Event.download entryC4.url dlC4, Event.hashFile dlC4] rfl
      (fun hx => Option.noConfusion hx)).2 (by decide) (by decide)⟩

/-- C5: resolving a tool whose registry entry already has a location returns
that cached path with an unchanged registry and an empty event trace, hence
with no version command, no filesystem or which lookup and no prompt. -/
theorem detectOrDownload_cached (w : World) (fuel : Nat)
    (tools : String → ToolEntry) (cmd : String) (l : String)
    (h : (tools cmd).location = some l) :
    detectOrDownload w fuel tools cmd = some (some l, tools, []) := by
  simp [detectOrDownload, h]

/-- Witness for C5 at a concrete registry with a cached location. -/
theorem detectOrDownload_cached_witness :
    (toolsC5 "kn").location = some "/usr/local/bin/kn"
    ∧ detectOrDownload worldC5 1 toolsC5 "kn"
        = some (some "/usr/local/bin/kn", toolsC5, []) :=
  ⟨rfl, detectOrDownload_cached worldC5 1 toolsC5 "kn" "/usr/local/bin/kn" rfl⟩

/-- C6: the per-candidate check.  When the file exists the binary is invoked
with the version argument and the truthy stdout is parsed by the semantic
version pattern; when it does not exist no version is detected and the
candidate satisfies no range; and for a truthy candidate selectTool accepts it
exactly when the detected version satisfies the range. -/
theorem getVersion_per_candidate (w : World) (l r : String)
    (rest : List (Option String)) :
    (w.existsAt l = true →
        (getVersion w l).2 =
          [Event.fsExists l, Event.execCmd ("\"" ++ l ++ "\" version")]
        ∧ (getVersion w l).1 =
            (if w.execStdout l = "" then none else parseStdout (w.execStdout l)))
    ∧ (w.existsAt l = false →
        (getVersion w l).1 = none
        ∧ (getVersion w l).2 = [Event.fsExists l]
        ∧ satisfiesOpt w (getVersion w l).1 r = false)
    ∧ (l ≠ "" →
        (selectTool w (some l :: rest) r).1 =
          (if satisfiesOpt w (getVersion w l).1 r then some l
           else (selectTool w rest r).1)) := by
  refine ⟨fun h => ?_, fun h => ?_, fun hl => ?_⟩
  · constructor
    · simp [getVersion, h]
      split <;> rfl
    · simp [getVersion, h]
      split <;> simp_all
  · simp [getVersion, h, satisfiesOpt]
  · cases hs : satisfiesOpt w (getVersion w l).1 r <;> simp [selectTool, hl, hs]

/-- Witness for C6 at an existing concrete path. -/
theorem getVersion_per_candidate_witness :
    (getVersion worldC1 "/opt/kn/kn").2
      = [Event.fsExists "/opt/kn/kn",
         Event.execCmd ("\"" ++ "/opt/kn/kn" ++ "\" version")]
    ∧ (getVersion worldC1 "/opt/kn/kn").1
      = (if worldC1.execStdout "/opt/kn/kn" = "" then none
         else parseStdout (worldC1.execStdout "/opt/kn/kn")) :=
  (getVersion_per_candidate worldC1 "/opt/kn/kn" ">=0.9.0" []).1 rfl

/-- C7: a call of detectOrDownload never overwrites an already-set location of
any registry entry; only an entry whose location was previously undefined can
be assigned. -/
theorem detectOrDownload_write_once (w : World) (fuel : Nat)
    (tools tools' : String → ToolEntry) (cmd : String) (res : Option String)
    (ev : List Event)
    (h : detectOrDownload w fuel tools cmd = some (res, tools', ev)) :
    ∀ c l, (tools c).location = some l → (tools' c).location = some l := by
  intro c l hc
  rcases detectOrDownload_state w fuel tools tools' cmd res ev h with rfl | ⟨hn, e, rfl⟩
  · exact hc
  · by_cases hcc : c = cmd
    · subst hcc
      rw [hn] at hc
      exact absurd hc (by simp)
    · simpa [setTool, hcc] using hc

/-- Witness for C7: a run that installs the kn tool leaves the already-set
location of the func entry untouched. -/
theorem detectOrDownload_write_once_witness :
    (outC7.2.1 "func").location = some "/usr/local/bin/func" :=
  detectOrDownload_write_once worldC7 1 toolsC7 outC7.2.1 "kn" outC7.1 outC7.2.2
    rfl "func" "/usr/local/bin/func" rfl

/-- C8: when no candidate satisfies the range and the user answers Cancel or
Help or dismisses the initial prompt, detectOrDownload returns undefined and
leaves the registry unchanged, so a later call re-runs the full detection. -/
theorem detectOrDownload_failed_unchanged (w : World) (fuel : Nat)
    (tools : String → ToolEntry) (cmd : String)
    (h0 : (tools cmd).location = none)
    (h1 : (selectTool w [w.whichResult,
            some (resolve3 w.home ".vs-kn" (tools cmd).cmdFileName)]
            (tools cmd).versionRange).1 = none)
    (h2 : w.initialResponse = none ∨ w.initialResponse = some "Cancel"
            ∨ w.initialResponse = some "Help") :
    (detectOrDownload w fuel tools cmd).map (fun x => (x.1, x.2.1))
      = some (none, tools) := by
  have hC : ("Cancel" = installRequestMsg (tools cmd)) = False :=
    eq_false (Ne.symm (installRequest_ne_cancel (tools cmd)))
  have hH : ("Help" = installRequestMsg (tools cmd)) = False :=
    eq_false (Ne.symm (installRequest_ne_help (tools cmd)))
  have hCH : (("Cancel" : String) = "Help") = False := by decide
  rcases h2 with h2 | h2 | h2 <;>
    simp [detectOrDownload, h0, h1, installFlow, h2, truthyOpt, hC, hH, hCH]

/-- Witness for C8 at a concrete world whose initial prompt is dismissed. -/
theorem detectOrDownload_failed_unchanged_witness :
    (detectOrDownload worldC8 1 toolsC8 "kn").map (fun x => (x.1, x.2.1))
      = some (none, toolsC8) :=
  detectOrDownload_failed_unchanged worldC8 1 toolsC8 "kn" rfl (by decide)
    (Or.inl rfl)

/-- C9: extensional characterisation of loadMetadata, which never mutates its
input (the source operates on a JSON deep copy; the rendering here is a pure
function of the input): an entry without a platform table survives unchanged,
an entry whose table has a row for the current OS gets that row merged in with
the platform property removed, and an entry whose table lacks such a row is
removed from the result entirely. -/
theorem loadMetadata_lookup (requirements : List (String × RawEntry))
    (osName : String) (k : String) (h : (keysOf requirements).Nodup) :
    lookupKey k (loadMetadata requirements osName)
      = (lookupKey k requirements).bind (entryTransform osName) := by
  unfold loadMetadata
  by_cases hk : k ∈ keysOf requirements
  · exact foldl_stepKey_mem osName (keysOf requirements) requirements k h h hk
  · rw [foldl_stepKey_not_mem osName (keysOf requirements) requirements k hk,
        lookupKey_of_not_mem k requirements hk]
    rfl

/-- Witness for C9 on a three-entry configuration exercising all three entry
shapes. -/
theorem loadMetadata_lookup_witness :
    (keysOf reqsEx).Nodup
    ∧ lookupKey "kn" (loadMetadata reqsEx "linux")
        = (lookupKey "kn" reqsEx).bind (entryTransform "linux")
    ∧ (lookupKey "kn" (loadMetadata reqsEx "linux")).map (fun e => e.platform)
        = some none
    ∧ lookupKey "other" (loadMetadata reqsEx "linux") = none
    ∧ lookupKey "plain" (loadMetadata reqsEx "linux")
        = lookupKey "plain" reqsEx :=
  ⟨by decide, loadMetadata_lookup reqsEx "linux" "kn" (by decide),
   by decide, by decide, by decide⟩

/-- C10: selectTool on the empty candidate list yields none with no external
call; a null candidate is skipped with the very same result and trace as if it
were absent, so getVersion is not invoked for it; and a candidate path that
does not exist on disk changes nothing about the selection result. -/
theorem selectTool_total_guards (w : World) (r : String) :
    selectTool w [] r = (none, [])
    ∧ (∀ rest, selectTool w (none :: rest) r = selectTool w rest r)
    ∧ (∀ l rest, w.existsAt l = false →
        (selectTool w (some l :: rest) r).1 = (selectTool w rest r).1) := by
  refine ⟨rfl, fun rest => rfl, fun l rest h => ?_⟩
  by_cases hl : l = ""
  · simp [selectTool, hl]
  · have hg : (getVersion w l).1 = none := by simp [getVersion, h]
    simp [selectTool, hl, hg, satisfiesOpt]

/-- Witness for C10 at a concrete non-existent candidate path. -/
theorem selectTool_total_guards_witness :
    worldC8.existsAt "/nowhere/kn" = false
    ∧ (selectTool worldC8 [some "/nowhere/kn"] "v0.9.0").1
        = (selectTool worldC8 [] "v0.9.0").1 :=
  ⟨rfl, (selectTool_total_guards worldC8 "v0.9.0").2.2 "/nowhere/kn" [] rfl⟩
